import Mathlib

/-
Verification of the dunebot repository's delivery pipeline, result formatter
and scheduler against its design specification.

The embedding translates the Python source into Lean:
  * `bot/services/scheduler.py`   : `ScheduledQueryRunner` (fire step, next-execution
    computation, status snapshot, sums step);
  * `bot/formatters/discord_embeds.py` : the pure embed formatters;
  * `bot/commands/dune_queries.py` : the embed sending loop (identical to the
    scheduler's sending block; both are embedded once as `deliver`).

Effectful operations (channel sends, sleeps) are modelled as a trace of events;
the outcome of each `channel.send` invocation is an oracle `sendOk : Nat → Bool`
indexed by the number of prior send invocations, and an uncaught Python
exception is modelled as an `Option String` (the exception's message) escaping
the translated block.
-/

namespace DuneBot

/-- One observable effect of the sending code: a plain-content `channel.send`,
an `asyncio.sleep`, or a `channel.send(embed=...)` invocation (recorded whether
or not the sink raises on it). -/
inductive SendEvent (α : Type) where
  | text (msg : String)
  | wait (seconds : Nat)
  | unit (u : α)
  deriving Repr, DecidableEq

/-- Result of running the embed-sending block: the event trace, the number of
`channel.send` invocations performed, and the exception escaping the block, if
any. -/
structure DeliverOut (α : Type) where
  trace : List (SendEvent α)
  sends : Nat
  exn : Option String
  deriving Repr, DecidableEq

/-- The progress notice sent before a multi-embed delivery
(`f"*Sending {len(embeds)} results with {delay}s delay between each...*"`). -/
def progressMessage (count delay : Nat) : String :=
  "*Sending " ++ toString count ++ " results with " ++ toString delay ++
    "s delay between each...*"

/-- The `for i, embed in enumerate(embeds, start=1)` loop body for `i > 1`:
sleep, then a try/except-guarded send whose failure is only logged. The trace
is therefore independent of the sink's outcomes. -/
def guardedSends (delay : Nat) : List α → List (SendEvent α)
  | [] => []
  | u :: rest => SendEvent.wait delay :: SendEvent.unit u :: guardedSends delay rest

/-- The embed-sending block shared verbatim by
`ScheduledQueryRunner._execute_query` (scheduler.py lines 175-199) and
`DuneCommands.execute_query` / `get_latest_results` (dune_queries.py).
`base` is the index of the block's first send invocation in the enclosing
step; `sendOk k` tells whether the k-th invocation succeeds and `sendErr k`
is the raised exception's message otherwise.

Faithful control flow: an empty list sends one plain message (unguarded); a
single embed is sent without try/except, so its failure escapes; more than one
embed sends an unguarded progress notice and then each embed inside
try/except, sleeping before every send except the first. -/
def deliver (embeds : List α) (delay : Nat) (sendOk : Nat → Bool)
    (sendErr : Nat → String) (base : Nat) : DeliverOut α :=
  match embeds with
  | [] =>
      { trace := [SendEvent.text "Query completed but no results to display."]
        sends := 1
        exn := if sendOk base then none else some (sendErr base) }
  | [u] =>
      { trace := [SendEvent.unit u]
        sends := 1
        exn := if sendOk base then none else some (sendErr base) }
  | u :: v :: rest =>
      let msg := progressMessage (rest.length + 2) delay
      if sendOk base then
        { trace := SendEvent.text msg :: SendEvent.unit u ::
            guardedSends delay (v :: rest)
          sends := rest.length + 3
          exn := none }
      else
        { trace := [SendEvent.text msg]
          sends := 1
          exn := some (sendErr base) }

/-- The embed-send invocations occurring in a trace, in order. -/
def unitAttempts : List (SendEvent α) → List α
  | [] => []
  | SendEvent.unit u :: r => u :: unitAttempts r
  | SendEvent.text _ :: r => unitAttempts r
  | SendEvent.wait _ :: r => unitAttempts r

/-- Specification-side shape of a paced delivery: the first unit is sent with
no wait, every later unit is preceded by one wait of `d` seconds. -/
def pacedFrom (d : Nat) : List α → List (SendEvent α)
  | [] => []
  | u :: rest =>
      SendEvent.unit u :: rest.flatMap (fun v => [SendEvent.wait d, SendEvent.unit v])

/-- Left-pad a decimal rendering with zeros to the given width (strftime-style
zero padding). -/
def padZeros (width : Nat) (n : Nat) : String :=
  let s := toString n
  if s.length < width then String.mk (List.replicate (width - s.length) '0') ++ s
  else s

def pad2 (n : Nat) : String := padZeros 2 n

def pad4 (n : Nat) : String := padZeros 4 n

def pad6 (n : Nat) : String := padZeros 6 n

def startsWithChars : List Char → List Char → Bool
  | [], _ => true
  | _ :: _, [] => false
  | a :: as, b :: bs => a == b && startsWithChars as bs

def hasSubChars (needle : List Char) : List Char → Bool
  | [] => startsWithChars needle []
  | c :: rest => startsWithChars needle (c :: rest) || hasSubChars needle rest

/-- Boolean substring test (`needle in hay` in Python). -/
def strOccurs (needle hay : String) : Bool :=
  hasSubChars needle.data hay.data

/-- Insert a thousands separator every three digits, working on the reversed
digit list. -/
def groupRev : List Char → List Char
  | a :: b :: c :: d :: rest => a :: b :: c :: ',' :: groupRev (d :: rest)
  | l => l

/-- Decimal rendering of a natural number with thousands separators
(the integer part of Python's `format(x, ",.2f")`). -/
def withThousands (n : Nat) : String :=
  String.mk ((groupRev (toString n).data.reverse).reverse)

/-- Strip all trailing occurrences of a character (`str.rstrip` with a
single-character argument). -/
def rstripChar (c : Char) (s : String) : String :=
  String.mk ((s.data.reverse.dropWhile (fun d => d == c)).reverse)

/-- Value of `x` rounded to integer hundredths. Python's `f"{x:.2f}"` rounds
the decimal expansion of the IEEE double half-to-even; the model rounds the
exact rational half-up, which agrees everywhere except at exact tie points
unreachable from the data in the claims. -/
def centsOf (q : Rat) : Int := (q * 100 + 1 / 2).floor

/-- Python `f"{x:.2f}"`. -/
def fixed2 (q : Rat) : String :=
  let c := centsOf q
  let n := c.natAbs
  (if c < 0 then "-" else "") ++ toString (n / 100) ++ "." ++ pad2 (n % 100)

/-- Python `f"{x:.2f}".rstrip("0").rstrip(".")`. -/
def fixed2Stripped (q : Rat) : String :=
  rstripChar '.' (rstripChar '0' (fixed2 q))

def ratAbs (q : Rat) : Rat := if q < 0 then -q else q

/-- Normalize a positive rational into `[1, 10)` returning the decimal
exponent; fuel-bounded recursion (the bound is far beyond any magnitude the
program can meet). -/
def sciShift (fuel : Nat) (q : Rat) (e : Int) : Rat × Int :=
  match fuel with
  | 0 => (q, e)
  | fuel + 1 =>
    if q < 1 then sciShift fuel (q * 10) (e - 1)
    else if 10 ≤ q then sciShift fuel (q / 10) (e + 1)
    else (q, e)

/-- Python `f"{x:.2e}"`: scientific notation, two-decimal mantissa, signed
two-digit-minimum exponent. -/
def sci2 (q : Rat) : String :=
  if q = 0 then "0.00e+00"
  else
    let p := sciShift 4096 (ratAbs q) 0
    let c0 := ((p.1 * 100 + 1 / 2).floor).toNat
    let c := if 1000 ≤ c0 then 100 else c0
    let e := if 1000 ≤ c0 then p.2 + 1 else p.2
    (if q < 0 then "-" else "") ++ toString (c / 100) ++ "." ++ pad2 (c % 100) ++
      "e" ++ (if e < 0 then "-" else "+") ++ pad2 e.natAbs

/-- The float branch shared by `_format_field_value` and `_format_cell_value`:
scientific notation below 0.01 (but not for zero) and at or above 1e6, fixed
two decimals with trailing zero/point stripped otherwise. -/
def floatRepr2 (q : Rat) : String :=
  if ratAbs q < 1 / 100 ∧ q ≠ 0 then sci2 q
  else if 1000000 ≤ ratAbs q then sci2 q
  else fixed2Stripped q

/-- A UTC civil timestamp (Python `datetime`; naive values are treated as UTC
by the source before use, so the model keeps a single UTC representation). -/
structure CivilTime where
  year : Nat
  month : Nat
  day : Nat
  hour : Nat
  minute : Nat
  second : Nat
  micro : Nat
  deriving Repr, DecidableEq

/-- A cell value as it can arrive in a Dune result row: the Python dynamic
types the formatters distinguish (`None`, `str`, `int`, `float`, `datetime`).
Floats are modelled as exact rationals. -/
inductive Value where
  | null
  | str (s : String)
  | int (n : Int)
  | num (q : Rat)
  | dt (t : CivilTime)
  deriving Repr, DecidableEq

/-- A result row: an ordered string-keyed mapping (Python dict). -/
abbrev Row := List (String × Value)

/-- Python `row.get(key)` (missing key and stored `None` both read back as
`Value.null`, matching how every formatter call site treats them). -/
def rowGet (row : Row) (key : String) : Value :=
  match row.lookup key with
  | some v => v
  | none => Value.null

/-- `QueryResult` from `bot/services/dune_client.py`. -/
structure QueryResult where
  queryId : Int
  executionId : String
  rows : List Row
  metadata : List (String × Value)
  deriving Repr, DecidableEq

def QueryResult.rowCount (r : QueryResult) : Nat := r.rows.length

def QueryResult.isEmpty (r : QueryResult) : Bool := r.rows.length == 0

def QueryResult.columnNames (r : QueryResult) : List String :=
  match r.rows with
  | row :: _ => row.map Prod.fst
  | [] => []

/-- Days from 1970-01-01 of a proleptic-Gregorian civil date (standard
era-based algorithm; defined for year ≥ 1, which covers every parseable
timestamp in the program). -/
def daysFromCivil (y m d : Nat) : Int :=
  let y2 := if m ≤ 2 then y - 1 else y
  let era := y2 / 400
  let yoe := y2 % 400
  let mp := (m + 9) % 12
  let doy := (153 * mp + 2) / 5 + d - 1
  let doe := yoe * 365 + yoe / 4 - yoe / 100 + doy
  (era : Int) * 146097 + (doe : Int) - 719468

/-- `int(dt.timestamp())` for a UTC datetime (microseconds truncate toward
zero; post-epoch instants make that a plain floor). -/
def unixTimestamp (t : CivilTime) : Int :=
  daysFromCivil t.year t.month t.day * 86400 +
    ((t.hour * 3600 + t.minute * 60 + t.second : Nat) : Int)

/-- Parse exactly `n` decimal digits (CPython strptime `%Y` takes exactly
four). -/
def parseNDigitsAux (n : Nat) (acc : Nat) (cs : List Char) :
    Option (Nat × List Char) :=
  match n, cs with
  | 0, cs => some (acc, cs)
  | n + 1, c :: cs =>
      if c.isDigit then parseNDigitsAux n (acc * 10 + (c.toNat - 48)) cs else none
  | _ + 1, [] => none

/-- Parse one or two decimal digits (greedy) with an inclusive value range,
mirroring CPython strptime's `%m`/`%d`/`%H`/`%M`/`%S` patterns. -/
def parseUpTo2 (lo hi : Nat) (cs : List Char) : Option (Nat × List Char) :=
  match cs with
  | c :: d :: rest =>
    if c.isDigit && d.isDigit then
      let v := (c.toNat - 48) * 10 + (d.toNat - 48)
      if lo ≤ v ∧ v ≤ hi then some (v, rest) else none
    else if c.isDigit then
      let v := c.toNat - 48
      if lo ≤ v ∧ v ≤ hi then some (v, d :: rest) else none
    else none
  | [c] =>
    if c.isDigit then
      let v := c.toNat - 48
      if lo ≤ v ∧ v ≤ hi then some (v, []) else none
    else none
  | [] => none

def parseChar (c : Char) : List Char → Option (List Char)
  | d :: rest => if c == d then some rest else none
  | [] => none

/-- Take up to `n` leading digits. -/
def takeDigitsUpTo (n : Nat) (cs : List Char) : List Char × List Char :=
  match n, cs with
  | 0, cs => ([], cs)
  | n + 1, c :: rest =>
      if c.isDigit then
        let p := takeDigitsUpTo n rest
        (c :: p.1, p.2)
      else ([], c :: rest)
  | _ + 1, [] => ([], [])

def digitsVal (ds : List Char) : Nat :=
  ds.foldl (fun a c => a * 10 + (c.toNat - 48)) 0

/-- CPython strptime `%f`: one to six digits, right-padded to microseconds. -/
def parseFrac (cs : List Char) : Option (Nat × List Char) :=
  let p := takeDigitsUpTo 6 cs
  if p.1.isEmpty then none
  else some (digitsVal p.1 * 10 ^ (6 - p.1.length), p.2)

/-- strptime against `%Y-%m-%d{sep}%H:%M[:%S[.%f]]` with a full-string match
requirement, the shape of every format string the formatters try. -/
def parseCivil (sep : Char) (withSec withFrac : Bool) (s : String) :
    Option CivilTime := do
  let cs := s.data
  let (y, cs) ← parseNDigitsAux 4 0 cs
  let cs ← parseChar '-' cs
  let (mo, cs) ← parseUpTo2 1 12 cs
  let cs ← parseChar '-' cs
  let (d, cs) ← parseUpTo2 1 31 cs
  let cs ← parseChar sep cs
  let (h, cs) ← parseUpTo2 0 23 cs
  let cs ← parseChar ':' cs
  let (mi, cs) ← parseUpTo2 0 59 cs
  if withSec then
    let cs ← parseChar ':' cs
    let (sec, cs) ← parseUpTo2 0 61 cs
    if withFrac then
      let cs ← parseChar '.' cs
      let (us, cs) ← parseFrac cs
      if cs.isEmpty then pure ⟨y, mo, d, h, mi, sec, us⟩ else none
    else if cs.isEmpty then pure ⟨y, mo, d, h, mi, sec, 0⟩ else none
  else if cs.isEmpty then pure ⟨y, mo, d, h, mi, 0, 0⟩ else none

/-- The substring before the first occurrence of `c`
(`s.split(c)[0]`). -/
def beforeChar (c : Char) (s : String) : String :=
  String.mk (s.data.takeWhile (fun d => !(d == c)))

/-- The format list of `_format_field_value` / `_format_cell_value`, tried in
source order. -/
def tryFormatsField (s : String) : Option CivilTime :=
  (parseCivil 'T' true false s).orElse fun _ =>
  (parseCivil 'T' true true s).orElse fun _ =>
  (parseCivil ' ' true false s).orElse fun _ =>
  parseCivil ' ' false false s

/-- The format list of `_format_discord_timestamp`, tried in source order. -/
def tryFormatsDiscord (s : String) : Option CivilTime :=
  (parseCivil 'T' true false s).orElse fun _ =>
  (parseCivil 'T' true true s).orElse fun _ =>
  (parseCivil ' ' true false s).orElse fun _ =>
  (parseCivil ' ' true true s).orElse fun _ =>
  parseCivil ' ' false false s

/-- `'T' in value or ('-' in value and ':' in value)`. -/
def stringLooksDT (s : String) : Bool :=
  s.contains 'T' || (s.contains '-' && s.contains ':')

/-- strftime `"%Y-%m-%d %H:%M:%S"`. -/
def strfFull (t : CivilTime) : String :=
  pad4 t.year ++ "-" ++ pad2 t.month ++ "-" ++ pad2 t.day ++ " " ++
    pad2 t.hour ++ ":" ++ pad2 t.minute ++ ":" ++ pad2 t.second

/-- `_format_field_value`: `None` → "N/A", datetime → second-precision
strftime, datetime-looking strings re-rendered through the format list (split
at `+`/`Z` first), floats magnitude-adaptive, ints decimal, other strings
unchanged. -/
def formatFieldValue (v : Value) : String :=
  match v with
  | Value.null => "N/A"
  | Value.dt t => strfFull t
  | Value.str s =>
    if stringLooksDT s then
      match tryFormatsField (beforeChar 'Z' (beforeChar '+' s)) with
      | some t => strfFull t
      | none => s
    else s
  | Value.num q => floatRepr2 q
  | Value.int n => toString n

def discordStamp (t : CivilTime) : String :=
  "<t:" ++ toString (unixTimestamp t) ++ ":f>"

/-- `_format_discord_timestamp`: `None` → "N/A"; a datetime is rendered as a
Discord `<t:unix:f>` token (naive treated as UTC); a string is cleaned
(drop " UTC", split at `+`/`Z`) and parsed against five formats; any other
value matches no isinstance branch in the source and falls through to
"N/A". -/
def formatDiscordTimestamp (v : Value) : String :=
  match v with
  | Value.null => "N/A"
  | Value.dt t => discordStamp t
  | Value.str s =>
    let clean := beforeChar 'Z' (beforeChar '+' (s.replace " UTC" ""))
    match tryFormatsDiscord clean with
    | some t => discordStamp t
    | none => "N/A"
  | Value.int _ => "N/A"
  | Value.num _ => "N/A"

/-- `BLOCKCHAIN_EXPLORERS` lookup. -/
def explorerBase (chain : String) : Option String :=
  if chain == "ethereum" then some "https://etherscan.io/tx/"
  else if chain == "optimism" then some "https://optimistic.etherscan.io/tx/"
  else if chain == "arbitrum" then some "https://arbiscan.io/tx/"
  else none

/-- Python `str()` restricted to this embedding's value universe (floats use
the stripped fixed-2 rendering as an approximation of CPython float repr; no
claim evaluates that case). -/
def pyStr : Value → String
  | Value.null => "None"
  | Value.str s => s
  | Value.int n => toString n
  | Value.num q => fixed2Stripped q
  | Value.dt t => strfFull t

/-- `_format_tx_link`: "unknown" for a missing hash, missing chain or a chain
outside the explorer mapping (case-insensitive); otherwise a markdown link.
The source annotates `blockchain: str | None`; values outside that domain are
ruled out by the annotation (a non-string would raise on `.lower()`), so the
model maps them to the sentinel. -/
def formatTxLink (blockchain txHash : Value) : String :=
  match txHash with
  | Value.null => "unknown"
  | h =>
    match blockchain with
    | Value.null => "unknown"
    | Value.str b =>
      match explorerBase b.toLower with
      | some base => "[" ++ pyStr h ++ "](" ++ base ++ pyStr h ++ ")"
      | none => "unknown"
    | _ => "unknown"

/-- `_truncate`. -/
def truncateText (s : String) (maxLen : Nat) : String :=
  if s.length ≤ maxLen then s
  else String.mk (s.data.take (maxLen - 3)) ++ "..."

structure EmbedField where
  name : String
  value : String
  inline : Bool
  deriving Repr, DecidableEq

structure Color where
  red : Nat
  green : Nat
  blue : Nat
  deriving Repr, DecidableEq

/-- `discord.Color.from_rgb(88, 101, 242)`, the default embed color. -/
def blurple : Color := ⟨88, 101, 242⟩

/-- `discord.Color.red()`. -/
def discordRed : Color := ⟨237, 66, 69⟩

/-- A Discord embed as the formatters build it: title, optional description,
color, creation timestamp (`datetime.now(timezone.utc)` at the call), ordered
fields and a footer. -/
structure Embed where
  title : Option String
  description : Option String
  color : Option Color
  timestamp : Option CivilTime
  fields : List EmbedField
  footer : Option String
  deriving Repr, DecidableEq

/-- The deterministic part of an embed: everything except the wall-clock
creation timestamp. -/
structure EmbedView where
  title : Option String
  description : Option String
  color : Option Color
  fields : List EmbedField
  footer : Option String
  deriving Repr, DecidableEq

def Embed.view (e : Embed) : EmbedView :=
  ⟨e.title, e.description, e.color, e.fields, e.footer⟩

/-- Python truthiness of an optional string (`None` and `""` are falsy). -/
def pyTruthyStr : Option String → Bool
  | none => false
  | some s => !s.isEmpty

/-- `_format_alcx_amount`: the "sold" leg is checked first, so it takes
priority when both token symbols equal the `"ALCX"` marker. -/
def formatAlcxAmount (row : Row) : Option String × Option String :=
  if rowGet row "token_sold_symbol" = Value.str "ALCX" then
    (some "ALCX Sold", some (formatFieldValue (rowGet row "token_sold_amount")))
  else if rowGet row "token_bought_symbol" = Value.str "ALCX" then
    (some "ALCX Bought", some (formatFieldValue (rowGet row "token_bought_amount")))
  else (none, none)

def rowFooter (queryId : Int) (rowIndex total : Nat) : String :=
  "Query ID: " ++ toString queryId ++ " | Row " ++ toString rowIndex ++
    " of " ++ toString total

/-- The loop body of `format_query_result_rows`: one embed per row with the
Block Time field, the conditional ALCX field (included only when both the name
and the formatted amount are truthy), the Amount USD field, the transaction
link and the positional footer. -/
def rowEmbed (queryId : Int) (total rowIndex : Nat) (row : Row)
    (title : String) (color : Color) (now : CivilTime) : Embed :=
  let blockTimeField : List EmbedField :=
    [⟨"Block Time", formatDiscordTimestamp (rowGet row "block_time"), true⟩]
  let alcx := formatAlcxAmount row
  let alcxFields : List EmbedField :=
    if pyTruthyStr alcx.1 && pyTruthyStr alcx.2 then
      [⟨alcx.1.getD "", alcx.2.getD "", true⟩]
    else []
  let usdField : List EmbedField :=
    [⟨"Amount USD", formatFieldValue (rowGet row "amount_usd"), true⟩]
  let txField : List EmbedField :=
    [⟨"Txn", formatTxLink (rowGet row "blockchain") (rowGet row "tx_hash"), true⟩]
  { title := some (truncateText title 256)
    description := none
    color := some color
    timestamp := some now
    fields := blockTimeField ++ alcxFields ++ usdField ++ txField
    footer := some (rowFooter queryId rowIndex total) }

/-- `for row_index, row in enumerate(result.rows, start=1)` unrolled with an
explicit running index. -/
def rowEmbedsFrom (queryId : Int) (total : Nat) (title : String) (color : Color)
    (now : CivilTime) (idx : Nat) : List Row → List Embed
  | [] => []
  | row :: rest =>
      rowEmbed queryId total idx row title color now ::
        rowEmbedsFrom queryId total title color now (idx + 1) rest

/-- The single "no results" embed returned for an empty result. -/
def emptyRowsEmbed (queryId : Int) (title : String) (color : Color)
    (now : CivilTime) : Embed :=
  { title := some (truncateText title 256)
    description := some "*No results returned*"
    color := some color
    timestamp := some now
    fields := []
    footer := some ("Query ID: " ++ toString queryId ++ " | 0 rows") }

/-- `format_query_result_rows` (title defaults to "ALCX Dex Swap" at the call
sites; `now` is the injected `datetime.now(timezone.utc)`). -/
def formatQueryResultRows (result : QueryResult) (title : String)
    (colorArg : Option Color) (now : CivilTime) : List Embed :=
  let color := colorArg.getD blurple
  if result.isEmpty then [emptyRowsEmbed result.queryId title color now]
  else rowEmbedsFrom result.queryId result.rows.length title color now 1 result.rows

/-- `format_error_embed`. -/
def formatErrorEmbed (errorMessage : String) (queryId : Option Int)
    (title : String) (now : CivilTime) : Embed :=
  { title := some ("❌ " ++ title)
    description := some (truncateText errorMessage 4096)
    color := some discordRed
    timestamp := some now
    fields := []
    footer := queryId.map (fun q => "Query ID: " ++ toString q) }

/-- CPython `float(s)` on a plain decimal / scientific literal: optional
whitespace and sign, digits with optional point and optional exponent.
(`inf`/`nan`/underscore forms stay outside the model's domain; the spec calls
such columns unparseable.) -/
def parseExpPart (sign mant : Rat) (cs : List Char) : Option Rat :=
  let sp :=
    match cs with
    | '-' :: rest => (true, rest)
    | '+' :: rest => (false, rest)
    | _ => (false, cs)
  let p := takeDigitsUpTo 1000 sp.2
  if p.1.isEmpty ∨ !p.2.isEmpty then none
  else
    let e := digitsVal p.1
    some (if sp.1 then sign * mant / 10 ^ e else sign * mant * 10 ^ e)

def parseFloatStr (s : String) : Option Rat :=
  let cs0 := s.trim.data
  let sp :=
    match cs0 with
    | '-' :: rest => ((-1 : Rat), rest)
    | '+' :: rest => ((1 : Rat), rest)
    | _ => ((1 : Rat), cs0)
  let ip := takeDigitsUpTo 1000 sp.2
  let fp :=
    match ip.2 with
    | '.' :: rest => let p := takeDigitsUpTo 1000 rest; (p.1, p.2, true)
    | _ => ([], ip.2, false)
  if ip.1.isEmpty ∧ fp.1.isEmpty then
    if fp.2.2 then none else none
  else
    let mant : Rat := (digitsVal ip.1 : Rat) +
      (digitsVal fp.1 : Rat) / ((10 : Rat) ^ fp.1.length)
    match fp.2.1 with
    | [] => some (sp.1 * mant)
    | 'e' :: rest => parseExpPart sp.1 mant rest
    | 'E' :: rest => parseExpPart sp.1 mant rest
    | _ => none

/-- The spec's "numeric-or-numeric-string" reading of an aggregate column:
floats and ints pass through, numeric strings are parsed, anything else
(absent, null, unparseable) is rejected. -/
def parseNumeric : Value → Option Rat
  | Value.num q => some q
  | Value.int n => some (n : Rat)
  | Value.str s => parseFloatStr s
  | Value.null => none
  | Value.dt _ => none

/-- Python `f"{x:,.2f}"`: thousands separators, two decimals. -/
def currency2 (q : Rat) : String :=
  let c := centsOf q
  let n := c.natAbs
  (if c < 0 then "-" else "") ++ withThousands (n / 100) ++ "." ++ pad2 (n % 100)

/-- Currency rendering of one aggregate column with the fixed N/A sentinel. -/
def formatUsd (v : Value) : String :=
  match parseNumeric v with
  | some q => "$" ++ currency2 q
  | none => "N/A"

/-- Modelled from the spec: `format_alcx_sums_embed` is imported from
`bot.formatters.discord_embeds` by the scheduler and by the test suite, but
the function itself is absent from the formatter source file. Spec §4.2: the
aggregate transform reads exactly two named numeric-or-numeric-string columns
from the first row (or yields a "no data" sentinel for an empty result),
formats each as currency with thousands separators and two decimals, and uses
a fixed N/A sentinel when a column is absent, unparseable or null. The
concrete column, field, title and footer strings are the ones pinned by the
callers and `src/tests/test_formatters.py` (TestFormatAlcxSumsEmbed). -/
def formatAlcxSumsEmbed (result : QueryResult) (title : String)
    (colorArg : Option Color) (now : CivilTime) : Embed :=
  let color := colorArg.getD blurple
  if result.isEmpty then
    { title := some title
      description := some "No data available for the last 24 hours."
      color := some color
      timestamp := some now
      fields := []
      footer := some ("Query ID: " ++ toString result.queryId ++ " | 24h Totals") }
  else
    let row := result.rows.headD []
    { title := some title
      description := none
      color := some color
      timestamp := some now
      fields := [⟨"ALCX Bought (USD)", formatUsd (rowGet row "alcx_bought_usd"), true⟩,
                 ⟨"ALCX Sold (USD)", formatUsd (rowGet row "alcx_sold_usd"), true⟩]
      footer := some ("Query ID: " ++ toString result.queryId ++ " | 24h Totals") }

/-- A local wall-clock instant as the scheduler compares them: a calendar day
index and the microsecond of that day. `datetime.combine(now.date(), t)` keeps
the day and replaces the time of day, and datetime comparison is exactly the
lexicographic order on this pair. -/
structure LocalDT where
  day : Int
  usec : Nat
  deriving Repr, DecidableEq

def usecPerDay : Nat := 86400000000

/-- Strict datetime order (`a < b`). -/
def dtBefore (a b : LocalDT) : Prop :=
  a.day < b.day ∨ (a.day = b.day ∧ a.usec < b.usec)

instance (a b : LocalDT) : Decidable (dtBefore a b) := by
  unfold dtBefore
  exact inferInstance

/-- Reflexive datetime order (`a <= b`). -/
def dtBeforeEq (a b : LocalDT) : Prop :=
  dtBefore a b ∨ a = b

/-- Microsecond of day of `time(hour, minute)`. -/
def timeOfDayUsec (hour minute : Nat) : Nat :=
  (hour * 60 + minute) * 60 * 1000000

/-- `ScheduledQueryRunner._calculate_next_execution`: combine today's date
with the configured time; if that instant is not strictly in the future, add
one day. -/
def calculateNextExecution (now : LocalDT) (hour minute : Nat) : LocalDT :=
  if dtBefore now ⟨now.day, timeOfDayUsec hour minute⟩ then
    ⟨now.day, timeOfDayUsec hour minute⟩
  else ⟨now.day + 1, timeOfDayUsec hour minute⟩

/-- Civil date from a day index ≥ 0 relative to 1970-01-01 (inverse of
`daysFromCivil`, same era-based algorithm). -/
def civilFromDays (z0 : Nat) : Nat × Nat × Nat :=
  let z := z0 + 719468
  let era := z / 146097
  let doe := z % 146097
  let yoe := (doe - doe / 1460 + doe / 36524 - doe / 146096) / 365
  let y := yoe + era * 400
  let doy := doe - (365 * yoe + yoe / 4 - yoe / 100)
  let mp := (5 * doy + 2) / 153
  let d := doy - (153 * mp + 2) / 5 + 1
  let m := if mp < 10 then mp + 3 else mp - 9
  (if m ≤ 2 then y + 1 else y, m, d)

/-- `datetime.isoformat()` of a post-epoch local instant (microseconds shown
only when nonzero, as CPython does). -/
def LocalDT.iso (t : LocalDT) : String :=
  let c := civilFromDays t.day.toNat
  let us := t.usec
  let h := us / 3600000000
  let mi := us / 60000000 % 60
  let s := us / 1000000 % 60
  let f := us % 1000000
  pad4 c.1 ++ "-" ++ pad2 c.2.1 ++ "-" ++ pad2 c.2.2 ++ "T" ++
    pad2 h ++ ":" ++ pad2 mi ++ ":" ++ pad2 s ++
    (if f = 0 then "" else "." ++ pad6 f)

/-- The mutable attribute record of a `ScheduledQueryRunner` instance:
configuration set in `__init__` plus the runtime fields the loop maintains. -/
structure RunnerState where
  queryId : Int
  executionTime : String
  channelId : Int
  embedDelaySeconds : Nat
  sumsQueryId : Option Int
  lastExecution : Option LocalDT
  nextExecution : Option LocalDT
  running : Bool
  deriving Repr, DecidableEq

/-- The string snapshot `get_status` returns. -/
structure StatusDict where
  queryId : String
  executionTime : String
  channelId : String
  lastExecution : Option String
  nextExecution : Option String
  running : String
  deriving Repr, DecidableEq

/-- `ScheduledQueryRunner.get_status`. -/
def getStatus (st : RunnerState) : StatusDict :=
  { queryId := toString st.queryId
    executionTime := st.executionTime
    channelId := toString st.channelId
    lastExecution := st.lastExecution.map LocalDT.iso
    nextExecution := st.nextExecution.map LocalDT.iso
    running := if st.running then "True" else "False" }

/-- The environment one fire step observes: the wall clock, whether
`bot.get_channel(channel_id)` resolves, the outcome of each query execution
(`Except.error` carries `str(e)` of the raised exception) and the outcome of
each `channel.send` invocation, indexed by the number of prior invocations in
the step. -/
structure FireEnv where
  now : LocalDT
  civilNow : CivilTime
  channel : Bool
  queryOutcome : Except String QueryResult
  sumsOutcome : Except String QueryResult
  sendOk : Nat → Bool
  sendErr : Nat → String

def scheduledTitle : String := "ALCX Dex Swap"

def sumsErrorEmbed (sq : Int) (msg : String) (now : CivilTime) : Embed :=
  formatErrorEmbed ("Error executing ALCX sums query: " ++ msg) (some sq)
    "ALCX Sums Query Error" now

/-- `ScheduledQueryRunner._execute_sums_query`: run the sums query, send the
aggregate embed; every exception (query failure or the embed send raising) is
caught inside this method, which then attempts an error-embed send whose own
failure is also caught — nothing escapes. Returns the send trace and the
number of send invocations. -/
def sumsStep (env : FireEnv) (base : Nat) (sq : Int) :
    List (SendEvent Embed) × Nat :=
  match env.sumsOutcome with
  | Except.ok result =>
      let emb := formatAlcxSumsEmbed result "ALCX 24h Summary" none env.civilNow
      if env.sendOk base then ([SendEvent.unit emb], 1)
      else
        ([SendEvent.unit emb,
          SendEvent.unit (sumsErrorEmbed sq (env.sendErr base) env.civilNow)], 2)
  | Except.error e =>
      ([SendEvent.unit (sumsErrorEmbed sq e env.civilNow)], 1)

/-- Python truthiness of the optional sums query id (`if self.sums_query_id:`
is false for both `None` and `0`). -/
def pyTruthySums : Option Int → Bool
  | none => false
  | some q => !(q == 0)

/-- The `try` block of `ScheduledQueryRunner._execute_query`: resolve the
channel (returning silently when it is missing), run the query, format the
rows and send them through the delivery block, then run the sums step when a
sums query id is configured. Returns the send trace, the number of send
invocations, and the exception escaping the block, if any. -/
def fireBody (st : RunnerState) (env : FireEnv) :
    List (SendEvent Embed) × Nat × Option String :=
  if !env.channel then ([], 0, none)
  else
    match env.queryOutcome with
    | Except.error e => ([], 0, some e)
    | Except.ok result =>
      let embeds := formatQueryResultRows result scheduledTitle none env.civilNow
      let dout := deliver embeds st.embedDelaySeconds env.sendOk env.sendErr 0
      match dout.exn with
      | some e => (dout.trace, dout.sends, some e)
      | none =>
        if pyTruthySums st.sumsQueryId then
          let sq := st.sumsQueryId.getD 0
          let p := sumsStep env dout.sends sq
          (dout.trace ++ p.1, dout.sends + p.2, none)
        else (dout.trace, dout.sends, none)

def schedErrorEmbed (queryId : Int) (msg : String) (now : CivilTime) : Embed :=
  formatErrorEmbed ("Error executing scheduled query: " ++ msg) (some queryId)
    "Scheduled Query Error" now

/-- `ScheduledQueryRunner._execute_query` (one fire step): record
`_last_execution = now` first, then run the try block; an exception escaping
it is caught by the method's `except` handler, which re-resolves the channel
and, when it is present, attempts to send a single error embed (that send's
own failure is caught by the inner try). The fire step as a whole returns
normally in every environment. -/
def executeQuery (st : RunnerState) (env : FireEnv) :
    RunnerState × List (SendEvent Embed) :=
  let st2 := { st with lastExecution := some env.now }
  let body := fireBody st2 env
  match body.2.2 with
  | none => (st2, body.1)
  | some e =>
    if env.channel then
      (st2, body.1 ++ [SendEvent.unit (schedErrorEmbed st.queryId e env.civilNow)])
    else (st2, body.1)

theorem guardedSends_eq_flatMap (d : Nat) (l : List α) :
    guardedSends d l = l.flatMap (fun v => [SendEvent.wait d, SendEvent.unit v]) := by
  induction l with
  | nil => rfl
  | cons v rest ih => simp [guardedSends, ih]

theorem unitAttempts_guardedSends (d : Nat) (l : List α) :
    unitAttempts (guardedSends d l) = l := by
  induction l with
  | nil => rfl
  | cons v rest ih => simp [guardedSends, unitAttempts, ih]

/-- C1: a delivery of more than one unit first sends exactly one plain
progress notice stating the unit count and the delay, then sends every unit in
original order, waiting `d` seconds before each send except the first; a
delivery of exactly one unit sends it directly with no preamble and no wait.
(The multi-unit clause is stated under the hypothesis that the sink does not
raise on the preamble send, invocation `0`; per-unit send outcomes are
arbitrary.) -/
theorem deliver_order_spec (α : Type) (d : Nat) (sendOk : Nat → Bool)
    (sendErr : Nat → String) (hpre : sendOk 0 = true) :
    (∀ units : List α, 1 < units.length →
      (deliver units d sendOk sendErr 0).trace =
        SendEvent.text (progressMessage units.length d) :: pacedFrom d units) ∧
    (∀ u : α, (deliver [u] d sendOk sendErr 0).trace = [SendEvent.unit u]) := by
  constructor
  · intro units hlen
    match units with
    | [] => simp at hlen
    | [u] => simp at hlen
    | u :: v :: rest =>
        simp only [deliver, hpre, if_true, pacedFrom, guardedSends_eq_flatMap]
        simp [List.length_cons]
  · intro u
    rfl

/-- Witness for `deliver_order_spec` at a concrete three-unit delivery. -/
theorem deliver_order_spec_witness :
    (deliver [10, 20, 30] 5 (fun _ => true) (fun _ => "boom") 0).trace =
      SendEvent.text (progressMessage 3 5) :: pacedFrom 5 [10, 20, 30] :=
  (deliver_order_spec Nat 5 (fun _ => true) (fun _ => "boom") rfl).1 [10, 20, 30]
    (by decide)

/-- C2 counterexample: a single-unit delivery whose unit send fails. The
single-embed path (`await channel.send(embed=embeds[0])`, scheduler.py line
199 / dune_queries.py line 99) is not guarded by try/except, so the unit's
send failure escapes the delivery block, contradicting "the delivery operation
itself never raises for an individual unit's send failure". -/
theorem deliver_single_unit_failure_raises :
    (deliver ([0] : List Nat) 5 (fun _ => false) (fun _ => "send failed") 0).exn =
      some "send failed" := rfl

/-- C2 (amended): for every delivery of more than one unit, per-unit send
failures never abort the remaining sends — every unit is attempted exactly
once, in order, and no exception escapes the block (given the preamble send
succeeds); if the preamble send itself fails, the exception escapes before any
unit attempt; for a delivery of exactly one unit the send is unguarded, so the
block raises exactly when that single send fails. -/
theorem deliver_failure_policy (α : Type) (d : Nat) (sendOk : Nat → Bool)
    (sendErr : Nat → String) :
    (∀ units : List α, 1 < units.length → sendOk 0 = true →
        unitAttempts (deliver units d sendOk sendErr 0).trace = units ∧
        (deliver units d sendOk sendErr 0).exn = none) ∧
    (∀ units : List α, 1 < units.length → sendOk 0 = false →
        (deliver units d sendOk sendErr 0).exn = some (sendErr 0) ∧
        unitAttempts (deliver units d sendOk sendErr 0).trace = []) ∧
    (∀ u : α,
        (deliver [u] d sendOk sendErr 0).exn =
          if sendOk 0 then none else some (sendErr 0)) := by
  refine ⟨?_, ?_, ?_⟩
  · intro units hlen hpre
    match units with
    | [] => simp at hlen
    | [u] => simp at hlen
    | u :: v :: rest =>
        simp [deliver, hpre, unitAttempts, unitAttempts_guardedSends]
  · intro units hlen hpre
    match units with
    | [] => simp at hlen
    | [u] => simp at hlen
    | u :: v :: rest =>
        simp [deliver, hpre, unitAttempts]
  · intro u
    rfl

/-- Witness for `deliver_failure_policy`: three units where the second unit's
send fails; all three are still attempted in order and nothing escapes. -/
theorem deliver_failure_policy_witness :
    unitAttempts (deliver [1, 2, 3] 5 (fun n => !(n == 2)) (fun _ => "boom") 0).trace
      = [1, 2, 3] ∧
    (deliver [1, 2, 3] 5 (fun n => !(n == 2)) (fun _ => "boom") 0).exn = none :=
  (deliver_failure_policy Nat 5 (fun n => !(n == 2)) (fun _ => "boom")).1
    [1, 2, 3] (by decide) rfl

theorem rowEmbedsFrom_length (qid : Int) (total : Nat) (t : String) (c : Color)
    (now : CivilTime) (idx : Nat) (rows : List Row) :
    (rowEmbedsFrom qid total t c now idx rows).length = rows.length := by
  induction rows generalizing idx with
  | nil => rfl
  | cons row rest ih => simp [rowEmbedsFrom, ih]

theorem rowEmbedsFrom_getQ (qid : Int) (total : Nat) (t : String) (c : Color)
    (now : CivilTime) (rows : List Row) (idx i : Nat) :
    (rowEmbedsFrom qid total t c now idx rows).get? i =
      (rows.get? i).map (fun row => rowEmbed qid total (idx + i) row t c now) := by
  induction rows generalizing idx i with
  | nil => simp [rowEmbedsFrom]
  | cons row rest ih =>
    cases i with
    | zero => simp [rowEmbedsFrom]
    | succ j =>
      simp only [rowEmbedsFrom, List.get?_cons_succ, ih, Nat.add_succ, Nat.succ_add]

theorem rowEmbedsFrom_mem (qid : Int) (total : Nat) (t : String) (c : Color)
    (now : CivilTime) (idx : Nat) (rows : List Row) :
    ∀ e ∈ rowEmbedsFrom qid total t c now idx rows,
      ∃ (i : Nat) (row : Row), e = rowEmbed qid total i row t c now := by
  induction rows generalizing idx with
  | nil => intro e he; simp [rowEmbedsFrom] at he
  | cons row rest ih =>
    intro e he
    simp only [rowEmbedsFrom, List.mem_cons] at he
    rcases he with he | he
    · exact ⟨idx, row, he⟩
    · exact ih (idx + 1) e he

/-- C3: the per-row formatter maps every empty QueryResult to exactly one
DisplayUnit — never an empty sequence — whose footer carries the query id and
a zero-row indication; concretely, for queryId 99 the footer contains "99" and
"0 rows". -/
theorem formatRows_empty_spec (r : QueryResult) (t : String) (c : Option Color)
    (now : CivilTime) (he : r.isEmpty = true) :
    (formatQueryResultRows r t c now).length = 1 ∧
    (∀ e ∈ formatQueryResultRows r t c now,
      e.footer = some ("Query ID: " ++ toString r.queryId ++ " | 0 rows")) ∧
    (formatQueryResultRows ⟨99, "exec-empty", [], []⟩ t c now).map
        (fun e => (strOccurs "99" (e.footer.getD ""),
                   strOccurs "0 rows" (e.footer.getD ""))) = [(true, true)] := by
  refine ⟨?_, ?_, ?_⟩
  · simp [formatQueryResultRows, he]
  · intro e hmem
    simp [formatQueryResultRows, he] at hmem
    subst hmem
    rfl
  · have h99 : (⟨99, "exec-empty", [], []⟩ : QueryResult).isEmpty = true := rfl
    simp only [formatQueryResultRows, h99, if_true, List.map_cons, List.map_nil]
    refine congrArg (fun p => [p]) ?_
    have hf : (emptyRowsEmbed 99 t (c.getD blurple) now).footer.getD "" =
        "Query ID: " ++ toString (99 : Int) ++ " | 0 rows" := rfl
    rw [hf]
    decide

/-- Witness for `formatRows_empty_spec` at a concrete empty result. -/
theorem formatRows_empty_spec_witness :
    (formatQueryResultRows ⟨99, "exec-empty", [], []⟩ "ALCX Dex Swap" none
        ⟨2024, 1, 1, 0, 0, 0, 0⟩).length = 1 :=
  (formatRows_empty_spec ⟨99, "exec-empty", [], []⟩ "ALCX Dex Swap" none
      ⟨2024, 1, 1, 0, 0, 0, 0⟩ rfl).1

/-- C4: for every non-empty QueryResult the per-row formatter returns exactly
`rowCount` DisplayUnits, the unit at 0-based index `i` is built from the i-th
row, and its footer states the query id and the 1-based position `i + 1` out
of the total row count. -/
theorem formatRows_nonempty_spec (r : QueryResult) (t : String)
    (c : Option Color) (now : CivilTime) (hne : r.isEmpty = false) :
    (formatQueryResultRows r t c now).length = r.rowCount ∧
    ∀ (i : Nat) (row : Row), r.rows.get? i = some row →
      (formatQueryResultRows r t c now).get? i =
        some (rowEmbed r.queryId r.rowCount (i + 1) row t (c.getD blurple) now) ∧
      (rowEmbed r.queryId r.rowCount (i + 1) row t (c.getD blurple) now).footer =
        some ("Query ID: " ++ toString r.queryId ++ " | Row " ++
          toString (i + 1) ++ " of " ++ toString r.rowCount) := by
  have hrw : formatQueryResultRows r t c now =
      rowEmbedsFrom r.queryId r.rows.length t (c.getD blurple) now 1 r.rows := by
    simp [formatQueryResultRows, hne]
  constructor
  · rw [hrw, rowEmbedsFrom_length]
    rfl
  · intro i row hi
    constructor
    · rw [hrw, rowEmbedsFrom_getQ, hi]
      simp [QueryResult.rowCount, Nat.add_comm]
    · rfl

/-- Witness for `formatRows_nonempty_spec` at a concrete two-row result. -/
theorem formatRows_nonempty_spec_witness :
    (formatQueryResultRows
        ⟨12345, "exec-1",
          [[("amount_usd", Value.num 3000)], [("amount_usd", Value.num 1)]], []⟩
        "ALCX Dex Swap" none ⟨2024, 1, 1, 0, 0, 0, 0⟩).length = 2 :=
  (formatRows_nonempty_spec
      ⟨12345, "exec-1",
        [[("amount_usd", Value.num 3000)], [("amount_usd", Value.num 1)]], []⟩
      "ALCX Dex Swap" none ⟨2024, 1, 1, 0, 0, 0, 0⟩ rfl).1

theorem rowEmbedsFrom_view_now (qid : Int) (total : Nat) (t : String)
    (c : Color) (now1 now2 : CivilTime) (idx : Nat) (rows : List Row) :
    (rowEmbedsFrom qid total t c now1 idx rows).map Embed.view =
      (rowEmbedsFrom qid total t c now2 idx rows).map Embed.view := by
  induction rows generalizing idx with
  | nil => rfl
  | cons row rest ih =>
    simp only [rowEmbedsFrom, List.map_cons]
    exact congrArg₂ List.cons rfl (ih (idx + 1))

/-- C9: the per-row formatter is a pure, deterministic function of the
QueryResult: two calls, even at different wall-clock instants (the only
impurity in the source is the embed creation timestamp), agree on the number
of units and on every title, field list, value and footer. -/
theorem formatRows_pure (r : QueryResult) (t : String) (c : Option Color)
    (now1 now2 : CivilTime) :
    (formatQueryResultRows r t c now1).map Embed.view =
      (formatQueryResultRows r t c now2).map Embed.view := by
  cases hr : r.isEmpty with
  | false =>
    simp only [formatQueryResultRows, hr, Bool.false_eq_true, if_false]
    exact rowEmbedsFrom_view_now _ _ _ _ _ _ _ _
  | true =>
    simp only [formatQueryResultRows, hr, if_true]
    rfl

theorem rowEmbed_name_mem (qid : Int) (total idx : Nat) (row : Row)
    (t : String) (c : Color) (now : CivilTime) (f : EmbedField)
    (hf : f ∈ (rowEmbed qid total idx row t c now).fields) :
    f.name = "Block Time" ∨ f.name = "Amount USD" ∨ f.name = "Txn" ∨
      some f.name = (formatAlcxAmount row).1 := by
  simp only [rowEmbed, List.mem_append, List.mem_cons, List.not_mem_nil,
    or_false] at hf
  rcases hf with ((h | h) | h) | h
  · subst h
    exact Or.inl rfl
  · split at h
    · next hcond =>
        simp only [List.mem_singleton] at h
        subst h
        have h1 : pyTruthyStr (formatAlcxAmount row).1 = true :=
          (Bool.and_eq_true _ _).mp hcond |>.1
        cases ha : (formatAlcxAmount row).1 with
        | none => rw [ha] at h1; exact absurd h1 (by decide)
        | some s =>
            refine Or.inr (Or.inr (Or.inr ?_))
            simp [ha]
    · exact absurd h (List.not_mem_nil f)
  · subst h
    exact Or.inr (Or.inl rfl)
  · subst h
    exact Or.inr (Or.inr (Or.inl rfl))

theorem rowEmbed_alcx_exclusive (qid : Int) (total idx : Nat) (row : Row)
    (t : String) (c : Color) (now : CivilTime) :
    ¬((∃ f ∈ (rowEmbed qid total idx row t c now).fields, f.name = "ALCX Sold") ∧
      (∃ f ∈ (rowEmbed qid total idx row t c now).fields, f.name = "ALCX Bought")) := by
  rintro ⟨⟨f1, hf1, hn1⟩, f2, hf2, hn2⟩
  have h1 := rowEmbed_name_mem qid total idx row t c now f1 hf1
  have h2 := rowEmbed_name_mem qid total idx row t c now f2 hf2
  rw [hn1] at h1
  rw [hn2] at h2
  rcases h1 with h1 | h1 | h1 | h1
  · exact absurd h1 (by decide)
  · exact absurd h1 (by decide)
  · exact absurd h1 (by decide)
  · rcases h2 with h2 | h2 | h2 | h2
    · exact absurd h2 (by decide)
    · exact absurd h2 (by decide)
    · exact absurd h2 (by decide)
    · rw [← h1] at h2
      exact absurd (Option.some.inj h2) (by decide)

/-- C8: when both token-symbol columns equal the marker "ALCX", the formatter
derives the "sold" conditional field — "ALCX Sold" with the formatted sold
amount — and never the "bought" one; and in every embed the per-row formatter
produces, the two conditional field names are mutually exclusive. -/
theorem alcx_sold_priority :
    (∀ row : Row,
        rowGet row "token_sold_symbol" = Value.str "ALCX" →
        rowGet row "token_bought_symbol" = Value.str "ALCX" →
        formatAlcxAmount row =
          (some "ALCX Sold",
           some (formatFieldValue (rowGet row "token_sold_amount")))) ∧
    (∀ (r : QueryResult) (t : String) (c : Option Color) (now : CivilTime),
      ∀ e ∈ formatQueryResultRows r t c now,
        ¬((∃ f ∈ e.fields, f.name = "ALCX Sold") ∧
          (∃ f ∈ e.fields, f.name = "ALCX Bought"))) := by
  constructor
  · intro row hs _
    simp [formatAlcxAmount, hs]
  · intro r t c now e he
    cases hr : r.isEmpty with
    | true =>
      simp only [formatQueryResultRows, hr, if_true, List.mem_singleton] at he
      subst he
      rintro ⟨⟨f, hf, _⟩, _⟩
      exact absurd hf (List.not_mem_nil f)
    | false =>
      simp only [formatQueryResultRows, hr, Bool.false_eq_true, if_false] at he
      obtain ⟨i, row, hrow⟩ := rowEmbedsFrom_mem _ _ _ _ _ _ _ e he
      subst hrow
      exact rowEmbed_alcx_exclusive _ _ _ _ _ _ _

unseal Rat.mul Rat.add Rat.inv Rat.sub Rat.ofScientific in
/-- Witness for `alcx_sold_priority`: a concrete row with both symbols equal
to "ALCX" yields the sold field with the formatted sold amount. -/
theorem alcx_sold_priority_witness :
    formatAlcxAmount
        [("token_sold_symbol", Value.str "ALCX"),
         ("token_bought_symbol", Value.str "ALCX"),
         ("token_sold_amount", Value.num 200),
         ("token_bought_amount", Value.num 100)] =
      (some "ALCX Sold", some "200") := by
  have h := alcx_sold_priority.1
      [("token_sold_symbol", Value.str "ALCX"),
       ("token_bought_symbol", Value.str "ALCX"),
       ("token_sold_amount", Value.num 200),
       ("token_bought_amount", Value.num 100)] (by decide) (by decide)
  exact h.trans (by decide)

unseal Rat.mul Rat.add Rat.inv Rat.sub Rat.ofScientific in
/-- C7 (spec-modelled): the aggregate transform reads exactly the two named
columns from the first row, yields a "no data" sentinel for an empty result,
formats a numeric value as currency with thousands separators and two
decimals — concretely 1234567.89 renders with "1,234,567.89" — and uses the
fixed N/A sentinel whenever a column is absent, unparseable or null. -/
theorem alcx_sums_spec :
    (∀ (r : QueryResult) (t : String) (c : Option Color) (now : CivilTime)
        (row : Row) (rest : List Row), r.rows = row :: rest →
        (formatAlcxSumsEmbed r t c now).fields =
          [⟨"ALCX Bought (USD)", formatUsd (rowGet row "alcx_bought_usd"), true⟩,
           ⟨"ALCX Sold (USD)", formatUsd (rowGet row "alcx_sold_usd"), true⟩]) ∧
    (∀ (r : QueryResult) (t : String) (c : Option Color) (now : CivilTime),
        r.isEmpty = true →
        (formatAlcxSumsEmbed r t c now).description =
          some "No data available for the last 24 hours." ∧
        (formatAlcxSumsEmbed r t c now).fields = []) ∧
    (∀ v : Value, parseNumeric v = none → formatUsd v = "N/A") ∧
    (formatUsd (Value.num ((123456789 : Rat) / 100)) = "$1,234,567.89" ∧
     strOccurs "1,234,567.89" (formatUsd (Value.num ((123456789 : Rat) / 100))) =
       true ∧
     formatUsd Value.null = "N/A") := by
  refine ⟨?_, ?_, ?_, by decide, by decide, by decide⟩
  · intro r t c now row rest hrows
    have hne : r.isEmpty = false := by
      simp [QueryResult.isEmpty, hrows]
    simp [formatAlcxSumsEmbed, hne, hrows]
  · intro r t c now he
    constructor <;> simp [formatAlcxSumsEmbed, he]
  · intro v hv
    simp [formatUsd, hv]

unseal Rat.mul Rat.add Rat.inv Rat.sub Rat.ofScientific in
/-- Witness for `alcx_sums_spec`: the aggregate embed built from the row
with alcx_bought_usd 1234567.89 carries the two named fields, the bought one
formatted as currency and the absent sold column as "N/A". -/
theorem alcx_sums_spec_witness :
    (formatAlcxSumsEmbed
        ⟨12345, "exec-1",
          [[("alcx_bought_usd", Value.num ((123456789 : Rat) / 100))]], []⟩
        "ALCX 24h Summary" none ⟨2024, 1, 1, 0, 0, 0, 0⟩).fields =
      [⟨"ALCX Bought (USD)", "$1,234,567.89", true⟩,
       ⟨"ALCX Sold (USD)", "N/A", true⟩] := by
  have h := alcx_sums_spec.1
      ⟨12345, "exec-1",
        [[("alcx_bought_usd", Value.num ((123456789 : Rat) / 100))]], []⟩
      "ALCX 24h Summary" none ⟨2024, 1, 1, 0, 0, 0, 0⟩
      [("alcx_bought_usd", Value.num ((123456789 : Rat) / 100))] [] rfl
  exact h.trans (by decide)

/-- C5: the next-execution computation returns the first occurrence of the
configured (hour, minute) strictly after `now`: the result is strictly in the
future, lies at the configured time of day, and is at or before every
occurrence of that time of day that is strictly after `now`; concretely, at
10:00 with configured time 14:30 it returns today at 14:30, and at 15:00 it
returns tomorrow at 14:30. -/
theorem calculateNextExecution_spec (now : LocalDT) (hour minute : Nat) :
    dtBefore now (calculateNextExecution now hour minute) ∧
    (calculateNextExecution now hour minute).usec = timeOfDayUsec hour minute ∧
    (∀ d : Int, dtBefore now ⟨d, timeOfDayUsec hour minute⟩ →
        dtBeforeEq (calculateNextExecution now hour minute)
          ⟨d, timeOfDayUsec hour minute⟩) ∧
    calculateNextExecution ⟨0, timeOfDayUsec 10 0⟩ 14 30 =
      ⟨0, timeOfDayUsec 14 30⟩ ∧
    calculateNextExecution ⟨0, timeOfDayUsec 15 0⟩ 14 30 =
      ⟨1, timeOfDayUsec 14 30⟩ := by
  refine ⟨?_, ?_, ?_, by decide, by decide⟩
  · unfold calculateNextExecution
    split
    · next h => exact h
    · next h =>
        simp only [dtBefore, LocalDT.mk.injEq] at *
        omega
  · unfold calculateNextExecution
    split <;> rfl
  · intro d hd
    unfold calculateNextExecution
    split
    · next h =>
        simp only [dtBefore, dtBeforeEq, LocalDT.mk.injEq, true_and, and_true,
          and_false, false_and, lt_self_iff_false, false_or, or_false] at h hd ⊢
        omega
    · next h =>
        simp only [dtBefore, dtBeforeEq, LocalDT.mk.injEq, true_and, and_true,
          and_false, false_and, lt_self_iff_false, false_or, or_false] at h hd ⊢
        omega

/-- Witness for `calculateNextExecution_spec`: minimality instantiated at the
concrete clock 10:00 with configured time 14:30 and candidate day 0. -/
theorem calculateNextExecution_spec_witness :
    dtBeforeEq (calculateNextExecution ⟨0, timeOfDayUsec 10 0⟩ 14 30)
      ⟨0, timeOfDayUsec 14 30⟩ :=
  (calculateNextExecution_spec ⟨0, timeOfDayUsec 10 0⟩ 14 30).2.2.1 0 (by decide)

/-- C6: every exception raised inside the fire step is caught rather than
terminating the scheduler task — the step is a total function returning to the
loop. When the channel lookup fails, the fire step is skipped entirely (no
sends, no retry; only `lastExecution` changes); when the lookup succeeds and
the query raises, the error is converted into exactly one error-embed send;
and in general any exception escaping the try block is followed by exactly one
appended error-embed send attempt. -/
theorem scheduler_fire_error_handling :
    (∀ (st : RunnerState) (env : FireEnv), env.channel = false →
        executeQuery st env = ({ st with lastExecution := some env.now }, [])) ∧
    (∀ (st : RunnerState) (env : FireEnv) (e : String),
        env.channel = true → env.queryOutcome = Except.error e →
        (executeQuery st env).2 =
          [SendEvent.unit (schedErrorEmbed st.queryId e env.civilNow)]) ∧
    (∀ (st : RunnerState) (env : FireEnv) (tr : List (SendEvent Embed))
        (n : Nat) (e : String),
        fireBody { st with lastExecution := some env.now } env = (tr, n, some e) →
        (executeQuery st env).2 =
          tr ++ [SendEvent.unit (schedErrorEmbed st.queryId e env.civilNow)]) := by
  refine ⟨?_, ?_, ?_⟩
  · intro st env h
    simp [executeQuery, fireBody, h]
  · intro st env e hch hq
    simp [executeQuery, fireBody, hch, hq]
  · intro st env tr n e hb
    cases h2 : env.channel with
    | false => simp [fireBody, h2] at hb
    | true => simp [executeQuery, hb, h2]

/-- Witness for `scheduler_fire_error_handling`: a concrete fire step whose
query raises is converted into exactly one error-embed send. -/
theorem scheduler_fire_error_handling_witness :
    (executeQuery
        ⟨777, "14:30", 999, 10, none, none, none, true⟩
        ⟨⟨19723, 0⟩, ⟨2024, 1, 1, 0, 0, 0, 0⟩, true, Except.error "boom",
          Except.error "unused", fun _ => true, fun _ => "send failed"⟩).2 =
      [SendEvent.unit (schedErrorEmbed 777 "boom" ⟨2024, 1, 1, 0, 0, 0, 0⟩)] :=
  scheduler_fire_error_handling.2.1
    ⟨777, "14:30", 999, 10, none, none, none, true⟩
    ⟨⟨19723, 0⟩, ⟨2024, 1, 1, 0, 0, 0, 0⟩, true, Except.error "boom",
      Except.error "unused", fun _ => true, fun _ => "send failed"⟩
    "boom" rfl rfl

/-- C10: one fire step sets `lastExecution` to the current wall clock before
the destination is resolved and before the query runs — so it advances in
every environment, including when the channel lookup or the query fails — and
leaves every other runner attribute (query id, execution time, channel id,
delay, sums query id, next execution, running flag) unchanged, which the
status snapshot reflects. -/
theorem fire_step_frame (st : RunnerState) (env : FireEnv) :
    (executeQuery st env).1 = { st with lastExecution := some env.now } ∧
    (getStatus (executeQuery st env).1).lastExecution =
      some (LocalDT.iso env.now) ∧
    (getStatus (executeQuery st env).1).queryId = (getStatus st).queryId ∧
    (getStatus (executeQuery st env).1).executionTime =
      (getStatus st).executionTime ∧
    (getStatus (executeQuery st env).1).channelId = (getStatus st).channelId ∧
    (executeQuery st env).1.embedDelaySeconds = st.embedDelaySeconds ∧
    (executeQuery st env).1.sumsQueryId = st.sumsQueryId ∧
    (executeQuery st env).1.nextExecution = st.nextExecution ∧
    (executeQuery st env).1.running = st.running := by
  have h1 : (executeQuery st env).1 =
      { st with lastExecution := some env.now } := by
    unfold executeQuery
    cases hb : (fireBody { st with lastExecution := some env.now } env).2.2 with
    | none => simp [hb]
    | some e => cases hc : env.channel <;> simp [hb, hc]
  refine ⟨h1, ?_, ?_, ?_, ?_, ?_, ?_, ?_, ?_⟩ <;> rw [h1] <;> rfl

end DuneBot
